import Mathlib

/-!
Shallow embedding of the todo-list application (`app/models.py`,
`app/storage.py`, `app/main.py`).

The backing store is Redis, used through a small fixed command set:
`SET`/`GET`/`DEL`/`EXISTS` on the record keys `TODO:<id>` and
`LPUSH`/`LRANGE`/`LREM` on the single order key `TODOS_ORDER`.  We model the
record keyspace as an association list keyed by the todo identifier (the key
prefix `TODO:` is injective, so keying by the identifier itself is faithful),
and the order list as a `List String` whose head is the newest entry (`LPUSH`
pushes on the left, `LRANGE 0 -1` reads left to right).

Stored values are JSON strings produced by `json.dumps(todo.to_dict())`.
`TodoStorage.get` runs `json.loads` and `Todo(**data)` without any exception
handler, so a stored value either is a well-formed encoding of a record
(`RawVal.enc`) or makes deserialization raise (`RawVal.bad` with a non-empty
payload); the empty string is falsy in Python and is caught by the
`if not raw` check.  Operations that can raise are modelled in `Except`.
-/

structure Todo where
  id : String
  title : String
  done : Bool
  created_at : String
deriving DecidableEq, Repr

/-- Python's `str.strip()` with no argument: drop whitespace from both ends.
Written over the character list so that it evaluates by kernel reduction. -/
def pyStrip (s : String) : String :=
  ⟨((s.data.dropWhile Char.isWhitespace).reverse.dropWhile
      Char.isWhitespace).reverse⟩

/-- `Todo.new` from `models.py`: `uuid.uuid4()` and `datetime.utcnow()` are
environment inputs, passed here explicitly as `fresh_id` and `now`. -/
def Todo.new (title fresh_id now : String) : Todo :=
  { id := fresh_id, title := pyStrip title, done := false, created_at := now }

/-- A raw value stored under a `TODO:<id>` key: either the JSON encoding of a
record (which `json.loads` + `Todo(**data)` decodes back to that record), or a
string on which deserialization raises (malformed JSON, or JSON whose fields do
not match the `Todo` dataclass). -/
inductive RawVal where
  | enc (t : Todo)
  | bad (s : String)
deriving DecidableEq, Repr

/-- The uncaught Python exception raised by `json.loads` / `Todo(**data)` on a
malformed stored value. -/
inductive PyErr where
  | deserializeError
deriving DecidableEq, Repr

/-- `json.dumps(todo.to_dict())`. -/
def serialize (t : Todo) : RawVal := .enc t

/-- `Todo(**json.loads(raw))`: raises on a malformed value. -/
def deserialize : RawVal → Except PyErr Todo
  | .enc t => .ok t
  | .bad _ => .error .deserializeError

/-- Python truthiness of the raw bytes: `if not raw` is taken when the value is
missing (handled separately) or is the empty string.  A JSON object encoding is
never empty. -/
def rawFalsy : RawVal → Bool
  | .enc _ => false
  | .bad s => s.isEmpty

/-- Redis `SET` restricted to the record keyspace: overwrite or insert.  The
keyspace is an unordered map, represented here as an association list whose
lookups go through `recGet`; `SET` binds the key to the new value and drops
any previous binding. -/
def recSet (recs : List (String × RawVal)) (k : String) (v : RawVal) :
    List (String × RawVal) :=
  (k, v) :: recs.filter (fun p => !(p.1 == k))

/-- Redis `GET` restricted to the record keyspace. -/
def recGet (recs : List (String × RawVal)) (k : String) : Option RawVal :=
  (recs.find? (fun p => p.1 == k)).map (·.2)

/-- Redis `DEL` of one record key. -/
def recDel (recs : List (String × RawVal)) (k : String) : List (String × RawVal) :=
  recs.filter (fun p => !(p.1 == k))

/-- The whole persisted state: the record keyspace plus the `TODOS_ORDER`
list (head = newest). -/
structure Store where
  records : List (String × RawVal)
  order : List String
deriving DecidableEq, Repr

namespace TodoStorage

/-- `TodoStorage.add`: pipeline of `SET TODO:<id>` then `LPUSH TODOS_ORDER id`. -/
def add (st : Store) (todo : Todo) : Store × Todo :=
  ({ records := recSet st.records todo.id (serialize todo),
     order := todo.id :: st.order }, todo)

/-- `TodoStorage.get`: `GET` the key; `None` when missing or falsy (empty);
otherwise deserialize, which may raise. -/
def get (st : Store) (todo_id : String) : Except PyErr (Option Todo) :=
  match recGet st.records todo_id with
  | none => .ok none
  | some raw => if rawFalsy raw then .ok none else (deserialize raw).map some

/-- The loop body of `TodoStorage.list_all` over the snapshot of ids. -/
def listAllAux (st : Store) : List String → Except PyErr (List Todo)
  | [] => .ok []
  | tid :: rest =>
    match get st tid with
    | .error e => .error e
    | .ok none => listAllAux st rest
    | .ok (some t) => (listAllAux st rest).map (t :: ·)

/-- `TodoStorage.list_all`: `LRANGE TODOS_ORDER 0 -1`, then resolve each id,
appending only the ones that resolve. -/
def list_all (st : Store) : Except PyErr (List Todo) := listAllAux st st.order

/-- `TodoStorage.update`: `EXISTS` guard, then `SET`.  Note the key written is
derived from the record's own `id` field. -/
def update (st : Store) (todo : Todo) : Store × Bool :=
  if (recGet st.records todo.id).isSome then
    ({ st with records := recSet st.records todo.id (serialize todo) }, true)
  else (st, false)

/-- `TodoStorage.toggle`: read, flip `done`, write back through `update`. -/
def toggle (st : Store) (todo_id : String) : Except PyErr (Store × Option Todo) :=
  match get st todo_id with
  | .error e => .error e
  | .ok none => .ok (st, none)
  | .ok (some t) =>
    let t2 : Todo := { t with done := !t.done }
    .ok ((update st t2).1, some t2)

/-- `TodoStorage.delete`: pipeline of `DEL TODO:<id>` and
`LREM TODOS_ORDER 0 id` (remove all occurrences); returns
`bool(res[0] or res[1])`. -/
def delete (st : Store) (todo_id : String) : Store × Bool :=
  ({ records := recDel st.records todo_id,
     order := st.order.filter (fun x => !(x == todo_id)) },
   (recGet st.records todo_id).isSome || st.order.contains todo_id)

/-- The loop of `TodoStorage.clear_completed` over the snapshot of ids taken
at entry. -/
def clearAux : Store → List String → Except PyErr (Store × Nat)
  | st, [] => .ok (st, 0)
  | st, tid :: rest =>
    match get st tid with
    | .error e => .error e
    | .ok none => clearAux st rest
    | .ok (some t) =>
      if t.done then
        (clearAux (delete st tid).1 rest).map
          (fun r => (r.1, (if (delete st tid).2 then 1 else 0) + r.2))
      else clearAux st rest

/-- `TodoStorage.clear_completed`. -/
def clear_completed (st : Store) : Except PyErr (Store × Nat) :=
  clearAux st st.order

end TodoStorage

/-! Request-handler layer (`main.py`), modelled for the endpoints the claims
mention.  Flask plumbing (redirects, templates, status codes) is reduced to
the discriminating outcome. -/

/-- Outcome of `POST /api/todos` (`api_add`). -/
inductive ApiAddResult where
  | badRequest
  | created (t : Todo)
deriving DecidableEq, Repr

/-- `api_add`: `(data.get("title") or "").strip()`; 400 when blank, otherwise
`Todo.new` + `store.add`. -/
def api_add (st : Store) (body_title : Option String) (fresh_id now : String) :
    Store × ApiAddResult :=
  let title := pyStrip (body_title.getD "")
  if title = "" then (st, .badRequest)
  else
    let t := Todo.new title fresh_id now
    ((TodoStorage.add st t).1, .created t)

/-- Outcome of `POST /add` (`add_todo`). -/
inductive WebAddResult where
  | flashBlankTitle
  | redirectIndex (t : Todo)
deriving DecidableEq, Repr

/-- `add_todo`: `request.form.get("title", "").strip()`; flash-and-redirect
when blank, otherwise `Todo.new` + `store.add`. -/
def add_todo (st : Store) (form_title : Option String) (fresh_id now : String) :
    Store × WebAddResult :=
  let title := pyStrip (form_title.getD "")
  if title = "" then (st, .flashBlankTitle)
  else
    let t := Todo.new title fresh_id now
    ((TodoStorage.add st t).1, .redirectIndex t)

/-- Outcome of `POST /api/todos/<id>/toggle` (`api_toggle`). -/
inductive ApiToggleResult where
  | notFound404
  | ok200 (t : Todo)
deriving DecidableEq, Repr

/-- `api_toggle`: 404 when `store.toggle` returns `None`. -/
def api_toggle (st : Store) (todo_id : String) :
    Except PyErr (Store × ApiToggleResult) :=
  match TodoStorage.toggle st todo_id with
  | .error e => .error e
  | .ok (st2, none) => .ok (st2, .notFound404)
  | .ok (st2, some t) => .ok (st2, .ok200 t)

/-! Derived observations used to state the claims. -/

/-- The record an identifier resolves to, when `get` neither raises nor
returns `None`. -/
def getOpt (st : Store) (tid : String) : Option Todo :=
  match TodoStorage.get st tid with
  | .ok (some t) => some t
  | _ => none

/-- Whether `get` raises on this identifier. -/
def getFails (st : Store) (tid : String) : Bool :=
  match TodoStorage.get st tid with
  | .error _ => true
  | .ok _ => false

/-- Whether the identifier resolves to a record whose completion flag is set. -/
def completedAt (st : Store) (tid : String) : Bool :=
  match TodoStorage.get st tid with
  | .ok (some t) => t.done
  | _ => false

/-- The identifiers in index order that resolve to an uncompleted record:
exactly the identifiers of the uncompleted records `list_all` returns. -/
def uncompletedIds (st : Store) : List String :=
  st.order.filter (fun tid =>
    match getOpt st tid with
    | some t => !t.done
    | none => false)

/-- The store that `clear_completed` leaves behind on a well-formed store
(established by `clear_completed_spec` below): the completed identifiers of
the order list are dropped from both the record keyspace and the order. -/
def clearedState (st : Store) : Store :=
  { records := st.records.filter
      (fun p => !(st.order.contains p.1 && completedAt st p.1)),
    order := st.order.filter (fun x => !(completedAt st x)) }

/-! Concrete stores used for the executable parts of the claims. -/

def demoA : Todo :=
  { id := "id-a", title := "first", done := false, created_at := "2024-01-01T00:00:00" }

def demoB : Todo :=
  { id := "id-b", title := "second", done := false, created_at := "2024-01-01T00:00:01" }

def demoC : Todo :=
  { id := "id-c", title := "third", done := false, created_at := "2024-01-01T00:00:02" }

def emptyStore : Store := { records := [], order := [] }

/-- `add(A)` then `add(B)` on an empty store. -/
def demoTwoStore : Store :=
  (TodoStorage.add (TodoStorage.add emptyStore demoA).1 demoB).1

/-- Three todos added to an empty store. -/
def demoThreeStore : Store :=
  (TodoStorage.add (TodoStorage.add (TodoStorage.add emptyStore demoA).1 demoB).1 demoC).1

/-- The state component of a `toggle` call (the store it leaves behind). -/
def toggledStore (st : Store) (tid : String) : Store :=
  match TodoStorage.toggle st tid with
  | .ok (st2, _) => st2
  | .error _ => st

/-- The three-todo store after toggling `demoA` and `demoB`. -/
def demoToggledStore : Store :=
  toggledStore (toggledStore demoThreeStore "id-a") "id-b"

/-- The store left behind by `clear_completed` on `demoToggledStore`. -/
def demoClearedStore : Store :=
  { records := [("id-c", RawVal.enc demoC)], order := ["id-c"] }

/-- A store holding a malformed value under the key of identifier `"x"`. -/
def c1BadStore : Store :=
  { records := [("x", RawVal.bad "not json")], order := [] }

example : TodoStorage.get { records := [], order := [] } "x" = .ok none := rfl

example :
    TodoStorage.get
      { records := [("x", RawVal.bad "not json")], order := [] } "x" =
    .error .deserializeError := rfl

/-! Basic lemmas about the record-keyspace primitives. -/

lemma find?_key_filter_ne (k y : String) (hne : y ≠ k) :
    ∀ recs : List (String × RawVal),
      (recs.filter (fun p => !(p.1 == k))).find? (fun p => p.1 == y) =
        recs.find? (fun p => p.1 == y) := by
  intro recs
  induction recs with
  | nil => rfl
  | cons p ps ih =>
    by_cases hk : p.1 = k
    · simp [hk, Ne.symm hne, ih]
    · by_cases hy : p.1 = y
      · simp [hk, hy, hne]
      · simp [hk, hy, ih]

lemma recGet_recSet_self (recs : List (String × RawVal)) (k : String) (v : RawVal) :
    recGet (recSet recs k v) k = some v := by
  unfold recSet recGet
  rw [List.find?_cons_of_pos _ (by simp)]
  rfl

lemma recGet_recSet_ne (recs : List (String × RawVal)) (k y : String) (v : RawVal)
    (hne : y ≠ k) : recGet (recSet recs k v) y = recGet recs y := by
  unfold recSet recGet
  rw [List.find?_cons_of_neg _ (by simp [Ne.symm hne]), find?_key_filter_ne k y hne recs]

lemma recGet_recDel_self (recs : List (String × RawVal)) (k : String) :
    recGet (recDel recs k) k = none := by
  have h : (recs.filter (fun p => !(p.1 == k))).find? (fun p => p.1 == k) = none := by
    rw [List.find?_eq_none]
    intro p hp
    have h2 := List.of_mem_filter hp
    simp at h2 ⊢
    exact h2
  unfold recDel recGet
  rw [h]
  rfl

lemma recGet_recDel_ne (recs : List (String × RawVal)) (k y : String)
    (hne : y ≠ k) : recGet (recDel recs k) y = recGet recs y := by
  unfold recDel recGet
  rw [find?_key_filter_ne k y hne recs]

/-- `get` only reads the record keyspace. -/
lemma get_eq_of_recGet_eq {st1 st2 : Store} {y : String}
    (h : recGet st1.records y = recGet st2.records y) :
    TodoStorage.get st1 y = TodoStorage.get st2 y := by
  unfold TodoStorage.get
  rw [h]

/-- Inversion: `get` succeeds with a record exactly when the key holds a
well-formed encoding of that record. -/
lemma get_eq_ok_some_iff (st : Store) (x : String) (t : Todo) :
    TodoStorage.get st x = .ok (some t) ↔
      recGet st.records x = some (RawVal.enc t) := by
  unfold TodoStorage.get
  cases h : recGet st.records x with
  | none => simp
  | some raw =>
    cases raw with
    | enc u => simp [rawFalsy, deserialize, Except.map]
    | bad s =>
      by_cases hs : s.isEmpty
      · simp [rawFalsy, hs]
      · simp [rawFalsy, hs, deserialize, Except.map]

/-- `update` leaves every key other than the written record's own id alone. -/
lemma recGet_update_ne (st : Store) (u : Todo) (y : String) (hne : y ≠ u.id) :
    recGet (TodoStorage.update st u).1.records y = recGet st.records y := by
  unfold TodoStorage.update
  split
  · exact recGet_recSet_ne _ _ _ _ hne
  · rfl

/-- `update` on a present key overwrites it with the new encoding. -/
lemma recGet_update_self (st : Store) (u : Todo)
    (h : (recGet st.records u.id).isSome) :
    recGet (TodoStorage.update st u).1.records u.id = some (RawVal.enc u) := by
  unfold TodoStorage.update
  simp only [h, if_pos]
  exact recGet_recSet_self _ _ _

/-- `delete` leaves every record key other than the deleted one alone. -/
lemma recGet_delete_ne (st : Store) (k y : String) (hne : y ≠ k) :
    recGet (TodoStorage.delete st k).1.records y = recGet st.records y :=
  recGet_recDel_ne _ _ _ hne

/-- A filter that keeps every element the searched-for predicate can match
does not change the result of `find?`. -/
lemma find?_filter_of_imp {α : Type} (p q : α → Bool) (l : List α)
    (himp : ∀ x, p x = true → q x = true) :
    (l.filter q).find? p = l.find? p := by
  induction l with
  | nil => rfl
  | cons a as ih =>
    by_cases hq : q a = true
    · rw [List.filter_cons_of_pos hq]
      by_cases hp : p a = true
      · rw [List.find?_cons_of_pos _ hp, List.find?_cons_of_pos _ hp]
      · rw [List.find?_cons_of_neg _ hp, List.find?_cons_of_neg _ hp]
        exact ih
    · have hp : p a = false := by
        cases hpa : p a with
        | true => exact absurd (himp a hpa) hq
        | false => rfl
      rw [List.filter_cons_of_neg (by simpa using hq),
        List.find?_cons_of_neg _ (by simp [hp])]
      exact ih

/-- Filtering the keyspace with a predicate that keeps every binding of a key
does not change lookups of that key. -/
lemma recGet_filter_keep (recs : List (String × RawVal))
    (q : String × RawVal → Bool) (tid : String)
    (hkeep : ∀ p : String × RawVal, p.1 = tid → q p = true) :
    recGet (recs.filter q) tid = recGet recs tid := by
  unfold recGet
  rw [find?_filter_of_imp _ q recs (fun x hx => hkeep x (by simpa using hx))]

/-! ## The claims -/

/-- C1, counterexample: on a store whose value under identifier `"x"` is a
malformed string, `get` raises the deserialization error instead of returning
absent, so malformed stored values do cause an uncaught error from `get`. -/
theorem c1_counterexample :
    TodoStorage.get c1BadStore "x" = .error PyErr.deserializeError ∧
      TodoStorage.get c1BadStore "x" ≠ .ok none := by
  refine ⟨rfl, fun h => ?_⟩
  have h2 : (Except.error PyErr.deserializeError :
      Except PyErr (Option Todo)) = .ok none := h
  exact Except.noConfusion h2

/-- C1 (amended): for every identifier, `get` returns absent (`None`) exactly
when the key does not exist or the stored value is the empty string; it raises
an uncaught deserialization error exactly when the stored value is non-empty
and fails to deserialize cleanly — malformed non-empty stored values error
rather than reading as absent. -/
theorem c1_get_absent_or_error (st : Store) (tid : String) :
    (TodoStorage.get st tid = .ok none ↔
      recGet st.records tid = none ∨
        recGet st.records tid = some (RawVal.bad "")) ∧
    ((∃ e, TodoStorage.get st tid = .error e) ↔
      ∃ s, s ≠ "" ∧ recGet st.records tid = some (RawVal.bad s)) := by
  unfold TodoStorage.get
  cases h : recGet st.records tid with
  | none => simp
  | some raw =>
    cases raw with
    | enc t => simp [rawFalsy, deserialize, Except.map]
    | bad s =>
      by_cases hs : s = ""
      · subst hs
        have he : "".isEmpty = true := rfl
        simp [rawFalsy, he]
      · have hie : s.isEmpty = false := by
          cases he : s.isEmpty with
          | true => exact absurd ((String.isEmpty_iff s).mp he) hs
          | false => rfl
        constructor
        · simp [rawFalsy, hie, deserialize, Except.map, hs]
        · constructor
          · intro _
            exact ⟨s, hs, rfl⟩
          · intro _
            exact ⟨PyErr.deserializeError, by simp [rawFalsy, hie, deserialize, Except.map]⟩

/-- C2: `delete` returns true exactly when the record key existed or the
identifier occurred in the order index, and when it returns false the whole
store is unchanged. -/
theorem c2_delete_inclusive_or (st : Store) (tid : String) :
    ((TodoStorage.delete st tid).2 = true ↔
      (recGet st.records tid).isSome = true ∨ tid ∈ st.order) ∧
    ((TodoStorage.delete st tid).2 = false →
      TodoStorage.delete st tid = (st, false)) := by
  constructor
  · unfold TodoStorage.delete
    simp [List.contains]
  · intro h
    have hb : ((recGet st.records tid).isSome || st.order.contains tid) = false := h
    rw [Bool.or_eq_false_iff] at hb
    obtain ⟨h1, h2⟩ := hb
    have hnone : recGet st.records tid = none := by
      cases hr : recGet st.records tid with
      | none => rfl
      | some v => rw [hr] at h1; simp at h1
    have hfind : st.records.find? (fun p => p.1 == tid) = none := by
      unfold recGet at hnone
      exact Option.map_eq_none'.mp hnone
    have hrec : recDel st.records tid = st.records := by
      unfold recDel
      rw [List.filter_eq_self]
      intro p hp
      have := List.find?_eq_none.mp hfind p hp
      simpa using this
    have hmem : tid ∉ st.order := by
      intro hm
      have hc : st.order.contains tid = true := List.elem_eq_true_of_mem hm
      rw [hc] at h2
      exact Bool.noConfusion h2
    have hord : st.order.filter (fun x => !(x == tid)) = st.order := by
      rw [List.filter_eq_self]
      intro x hx
      simp
      intro hxe
      exact hmem (hxe ▸ hx)
    unfold TodoStorage.delete
    rw [hrec, hord, h1, h2]
    rfl

/-- C3: for a non-blank title, `Todo.new` followed by `add` then `get` on the
fresh identifier returns the created record: title is the trimmed input, the
completion flag is false, and the identifier is the freshly generated one,
distinct from every prior record key and order entry (freshness of the
generated UUID is the hypothesis `hfresh`). -/
theorem c3_add_get_roundtrip (st : Store) (title fid now : String)
    (hti : pyStrip title ≠ "")
    (hfresh : (∀ p ∈ st.records, p.1 ≠ fid) ∧ fid ∉ st.order) :
    TodoStorage.get (TodoStorage.add st (Todo.new title fid now)).1 fid =
        .ok (some (Todo.new title fid now)) ∧
      (Todo.new title fid now).title = pyStrip title ∧
      (Todo.new title fid now).title ≠ "" ∧
      (Todo.new title fid now).done = false ∧
      (Todo.new title fid now).id = fid ∧
      (∀ p ∈ st.records, (Todo.new title fid now).id ≠ p.1) ∧
      (Todo.new title fid now).id ∉ st.order := by
  refine ⟨?_, rfl, hti, rfl, rfl, ?_, hfresh.2⟩
  · rw [get_eq_ok_some_iff]
    exact recGet_recSet_self st.records fid (serialize (Todo.new title fid now))
  · intro p hp he
    exact hfresh.1 p hp he.symm

/-- C6: when `get` resolves the identifier to absent, `toggle` reports the
not-found outcome (`None` at the storage layer, 404 at `api_toggle`) and
returns the store unchanged. -/
theorem c6_toggle_absent (st : Store) (tid : String)
    (h : TodoStorage.get st tid = .ok none) :
    TodoStorage.toggle st tid = .ok (st, none) ∧
      api_toggle st tid = .ok (st, ApiToggleResult.notFound404) := by
  have ht : TodoStorage.toggle st tid = .ok (st, none) := by
    unfold TodoStorage.toggle
    rw [h]
  refine ⟨ht, ?_⟩
  unfold api_toggle
  rw [ht]

/-- C7: a title that is empty after trimming is rejected by both the web form
handler and the JSON API handler; no record is written and no identifier is
added to the order index (the store is returned unchanged). -/
theorem c7_blank_title_rejected (st : Store) (title fid now : String)
    (h : pyStrip title = "") :
    api_add st (some title) fid now = (st, ApiAddResult.badRequest) ∧
      add_todo st (some title) fid now = (st, WebAddResult.flashBlankTitle) := by
  unfold api_add add_todo
  simp [h]

lemma listAllAux_eq_filterMap (st : Store) :
    ∀ ids : List String, (∀ tid ∈ ids, getFails st tid = false) →
      TodoStorage.listAllAux st ids = .ok (ids.filterMap (getOpt st)) := by
  intro ids
  induction ids with
  | nil => intro _; rfl
  | cons tid rest ih =>
    intro h
    have h0 := h tid (List.mem_cons_self tid rest)
    have hr : ∀ x ∈ rest, getFails st x = false :=
      fun x hx => h x (List.mem_cons_of_mem _ hx)
    unfold TodoStorage.listAllAux
    cases hg : TodoStorage.get st tid with
    | error e =>
      unfold getFails at h0
      rw [hg] at h0
      exact Bool.noConfusion h0
    | ok o =>
      have hopt : getOpt st tid = o := by
        unfold getOpt
        rw [hg]
        cases o <;> rfl
      cases o with
      | none =>
        rw [List.filterMap_cons, hopt]
        exact ih hr
      | some t =>
        rw [List.filterMap_cons, hopt, ih hr]
        rfl

/-- C4: `list_all` returns, in index order, the records of exactly those
identifiers that resolve, silently skipping every identifier whose record is
absent (hypothesis `h`: no stored value reachable from the index is malformed,
since a malformed value raises instead of reading as absent); and concretely,
after `add(demoA)` then `add(demoB)` the listing is `[demoB, demoA]`. -/
theorem c4_list_all_skips_absent (st : Store)
    (h : ∀ tid ∈ st.order, getFails st tid = false) :
    TodoStorage.list_all st = .ok (st.order.filterMap (getOpt st)) ∧
      TodoStorage.list_all demoTwoStore = .ok [demoB, demoA] := by
  constructor
  · unfold TodoStorage.list_all
    exact listAllAux_eq_filterMap st st.order h
  · rfl

/-- C5: if the identifier resolves to a record, toggling twice succeeds and
leaves the record stored under that identifier with its original completion
flag. -/
theorem c5_toggle_twice_restores (st : Store) (x : String) (t : Todo)
    (h : TodoStorage.get st x = .ok (some t)) :
    ∃ st1 u1, TodoStorage.toggle st x = .ok (st1, some u1) ∧
      ∃ st2 u2, TodoStorage.toggle st1 x = .ok (st2, some u2) ∧
        ∃ w, TodoStorage.get st2 x = .ok (some w) ∧ w.done = t.done := by
  obtain ⟨i, ti, d, c⟩ := t
  have hr : recGet st.records x = some (RawVal.enc ⟨i, ti, d, c⟩) :=
    (get_eq_ok_some_iff st x _).mp h
  have htog1 : TodoStorage.toggle st x =
      .ok ((TodoStorage.update st ⟨i, ti, !d, c⟩).1, some ⟨i, ti, !d, c⟩) := by
    unfold TodoStorage.toggle
    rw [h]
  set st1 := (TodoStorage.update st ⟨i, ti, !d, c⟩).1 with hst1
  by_cases hid : i = x
  · subst hid
    have hsome : (recGet st.records i).isSome := by rw [hr]; rfl
    have hr1 : recGet st1.records i = some (RawVal.enc ⟨i, ti, !d, c⟩) :=
      recGet_update_self st ⟨i, ti, !d, c⟩ hsome
    have hget1 : TodoStorage.get st1 i = .ok (some ⟨i, ti, !d, c⟩) :=
      (get_eq_ok_some_iff st1 i _).mpr hr1
    have htog2 : TodoStorage.toggle st1 i =
        .ok ((TodoStorage.update st1 ⟨i, ti, !(!d), c⟩).1, some ⟨i, ti, !(!d), c⟩) := by
      unfold TodoStorage.toggle
      rw [hget1]
    have hdd : (⟨i, ti, !(!d), c⟩ : Todo) = ⟨i, ti, d, c⟩ := by
      rw [Bool.not_not]
    rw [hdd] at htog2
    have hsome1 : (recGet st1.records i).isSome := by rw [hr1]; rfl
    have hr2 : recGet (TodoStorage.update st1 ⟨i, ti, d, c⟩).1.records i =
        some (RawVal.enc ⟨i, ti, d, c⟩) :=
      recGet_update_self st1 ⟨i, ti, d, c⟩ hsome1
    exact ⟨st1, _, htog1, _, _, htog2, ⟨i, ti, d, c⟩,
      (get_eq_ok_some_iff _ i _).mpr hr2, rfl⟩
  · have hr1 : recGet st1.records x = some (RawVal.enc ⟨i, ti, d, c⟩) := by
      rw [hst1, recGet_update_ne st ⟨i, ti, !d, c⟩ x (fun he => hid he.symm)]
      exact hr
    have hget1 : TodoStorage.get st1 x = .ok (some ⟨i, ti, d, c⟩) :=
      (get_eq_ok_some_iff st1 x _).mpr hr1
    have htog2 : TodoStorage.toggle st1 x =
        .ok ((TodoStorage.update st1 ⟨i, ti, !d, c⟩).1, some ⟨i, ti, !d, c⟩) := by
      unfold TodoStorage.toggle
      rw [hget1]
    have hr2 : recGet (TodoStorage.update st1 ⟨i, ti, !d, c⟩).1.records x =
        some (RawVal.enc ⟨i, ti, d, c⟩) := by
      rw [recGet_update_ne st1 ⟨i, ti, !d, c⟩ x (fun he => hid he.symm)]
      exact hr1
    exact ⟨st1, _, htog1, _, _, htog2, ⟨i, ti, d, c⟩,
      (get_eq_ok_some_iff _ x _).mpr hr2, rfl⟩

/-- `delete` only reads and writes the deleted key in the record keyspace. -/
lemma get_after_delete_ne (st : Store) (k y : String) (hne : y ≠ k) :
    TodoStorage.get (TodoStorage.delete st k).1 y = TodoStorage.get st y :=
  get_eq_of_recGet_eq (recGet_delete_ne st k y hne)

/-- Characterization of the `clear_completed` loop over a duplicate-free
snapshot of identifiers, none of which makes `get` raise: it deletes exactly
the snapshot identifiers whose record is completed, filters them out of the
order list, and counts them. -/
lemma clearAux_spec :
    ∀ (ids : List String) (st : Store), ids.Nodup →
      (∀ tid ∈ ids, getFails st tid = false) →
      TodoStorage.clearAux st ids = .ok
        ({ records := st.records.filter
             (fun p => !(ids.contains p.1 && completedAt st p.1)),
           order := st.order.filter
             (fun x => !(ids.contains x && completedAt st x)) },
         (ids.filter (fun x => completedAt st x)).length) := by
  intro ids
  induction ids with
  | nil =>
    intro st _ _
    have hrec : st.records.filter
        (fun p => !(([] : List String).contains p.1 && completedAt st p.1)) =
        st.records := by
      rw [List.filter_eq_self]
      intro p _
      rfl
    have hord : st.order.filter
        (fun x => !(([] : List String).contains x && completedAt st x)) =
        st.order := by
      rw [List.filter_eq_self]
      intro x _
      rfl
    rw [hrec, hord]
    rfl
  | cons tid rest ih =>
    intro st hnd h
    obtain ⟨htidrest, hndrest⟩ := List.nodup_cons.mp hnd
    have h0 : getFails st tid = false := h tid (List.mem_cons_self _ _)
    have hrest : ∀ x ∈ rest, getFails st x = false :=
      fun x hx => h x (List.mem_cons_of_mem _ hx)
    cases hg : TodoStorage.get st tid with
    | error e =>
      unfold getFails at h0
      rw [hg] at h0
      exact Bool.noConfusion h0
    | ok o =>
      have hskip : completedAt st tid = false →
          TodoStorage.clearAux st rest = .ok
            ({ records := st.records.filter
                 (fun p => !((tid :: rest).contains p.1 && completedAt st p.1)),
               order := st.order.filter
                 (fun x => !((tid :: rest).contains x && completedAt st x)) },
             ((tid :: rest).filter (fun x => completedAt st x)).length) := by
        intro hcompl
        have hrecords : st.records.filter
            (fun p => !(rest.contains p.1 && completedAt st p.1)) =
            st.records.filter
              (fun p => !((tid :: rest).contains p.1 && completedAt st p.1)) := by
          apply List.filter_congr
          intro p _
          by_cases hp : p.1 = tid
          · rw [List.contains_cons, beq_iff_eq.mpr hp, hp, hcompl]
            simp
          · rw [List.contains_cons, beq_eq_false_iff_ne.mpr hp, Bool.false_or]
        have hord : st.order.filter
            (fun x => !(rest.contains x && completedAt st x)) =
            st.order.filter
              (fun x => !((tid :: rest).contains x && completedAt st x)) := by
          apply List.filter_congr
          intro x _
          by_cases hx : x = tid
          · rw [List.contains_cons, beq_iff_eq.mpr hx, hx, hcompl]
            simp
          · rw [List.contains_cons, beq_eq_false_iff_ne.mpr hx, Bool.false_or]
        have hcnt : (tid :: rest).filter (fun x => completedAt st x) =
            rest.filter (fun x => completedAt st x) :=
          List.filter_cons_of_neg (by simp [hcompl])
        rw [ih st hndrest hrest, hcnt, hrecords, hord]
      cases o with
      | none =>
        have hcompl : completedAt st tid = false := by
          unfold completedAt
          rw [hg]
        have hstep : TodoStorage.clearAux st (tid :: rest) =
            TodoStorage.clearAux st rest := by
          simp [TodoStorage.clearAux, hg]
        rw [hstep]
        exact hskip hcompl
      | some t =>
        cases hdone : t.done with
        | false =>
          have hcompl : completedAt st tid = false := by
            unfold completedAt
            rw [hg]
            exact hdone
          have hstep : TodoStorage.clearAux st (tid :: rest) =
              TodoStorage.clearAux st rest := by
            simp [TodoStorage.clearAux, hg, hdone]
          rw [hstep]
          exact hskip hcompl
        | true =>
          have hcompl : completedAt st tid = true := by
            unfold completedAt
            rw [hg]
            exact hdone
          have hrec0 : recGet st.records tid = some (RawVal.enc t) :=
            (get_eq_ok_some_iff st tid t).mp hg
          have hdel2 : (TodoStorage.delete st tid).2 = true := by
            show ((recGet st.records tid).isSome || st.order.contains tid) = true
            rw [hrec0]
            rfl
          have hstep : TodoStorage.clearAux st (tid :: rest) =
              (TodoStorage.clearAux (TodoStorage.delete st tid).1 rest).map
                (fun r => (r.1, 1 + r.2)) := by
            simp [TodoStorage.clearAux, hg, hdone, hdel2]
          have hget1 : ∀ y, y ≠ tid →
              TodoStorage.get (TodoStorage.delete st tid).1 y =
                TodoStorage.get st y :=
            fun y hy => get_after_delete_ne st tid y hy
          have hfails1 : ∀ x ∈ rest,
              getFails (TodoStorage.delete st tid).1 x = false := by
            intro x hx
            have hxne : x ≠ tid := fun he => htidrest (he ▸ hx)
            have hx0 := hrest x hx
            unfold getFails at hx0 ⊢
            rw [hget1 x hxne]
            exact hx0
          have hcompl1 : ∀ x, x ≠ tid →
              completedAt (TodoStorage.delete st tid).1 x = completedAt st x := by
            intro x hx
            unfold completedAt
            rw [hget1 x hx]
          rw [hstep, ih (TodoStorage.delete st tid).1 hndrest hfails1]
          have hcnt1 : rest.filter (fun x => completedAt (TodoStorage.delete st tid).1 x) =
              rest.filter (fun x => completedAt st x) :=
            List.filter_congr
              (fun x hx => hcompl1 x (fun he => htidrest (he ▸ hx)))
          have hcnt2 : (tid :: rest).filter (fun x => completedAt st x) =
              tid :: rest.filter (fun x => completedAt st x) :=
            List.filter_cons_of_pos (by rw [hcompl])
          have hrecords : (TodoStorage.delete st tid).1.records.filter
              (fun p => !(rest.contains p.1 &&
                completedAt (TodoStorage.delete st tid).1 p.1)) =
              st.records.filter
                (fun p => !((tid :: rest).contains p.1 && completedAt st p.1)) := by
            show (recDel st.records tid).filter _ = _
            unfold recDel
            rw [List.filter_filter]
            apply List.filter_congr
            intro p _
            by_cases hp : p.1 = tid
            · have h1 : (p.1 == tid) = true := beq_iff_eq.mpr hp
              have h2 : ((tid :: rest).contains p.1) = true := by
                rw [List.contains_cons, h1]
                rfl
              rw [h1, h2, hp, hcompl]
              simp
            · have h1 : (p.1 == tid) = false := beq_eq_false_iff_ne.mpr hp
              rw [h1, List.contains_cons, h1, Bool.false_or, hcompl1 p.1 hp]
              simp
          have horder : (TodoStorage.delete st tid).1.order.filter
              (fun x => !(rest.contains x &&
                completedAt (TodoStorage.delete st tid).1 x)) =
              st.order.filter
                (fun x => !((tid :: rest).contains x && completedAt st x)) := by
            show (st.order.filter (fun x => !(x == tid))).filter _ = _
            rw [List.filter_filter]
            apply List.filter_congr
            intro x _
            by_cases hx : x = tid
            · have h1 : (x == tid) = true := beq_iff_eq.mpr hx
              have h2 : ((tid :: rest).contains x) = true := by
                rw [List.contains_cons, h1]
                rfl
              rw [h1, h2, hx, hcompl]
              simp
            · have h1 : (x == tid) = false := beq_eq_false_iff_ne.mpr hx
              rw [h1, List.contains_cons, h1, Bool.false_or, hcompl1 x hx]
              simp
          rw [hrecords, horder, hcnt1, hcnt2, List.length_cons, Nat.add_comm]
          rfl

/-- `clear_completed` on a well-formed store: the order list keeps exactly the
identifiers that do not resolve to a completed record, the record keyspace
drops exactly the completed identifiers of the order list, and the returned
count is the number of completed identifiers. -/
lemma clear_completed_spec (st : Store) (hnd : st.order.Nodup)
    (h : ∀ tid ∈ st.order, getFails st tid = false) :
    TodoStorage.clear_completed st = .ok
      (clearedState st, (st.order.filter (fun x => completedAt st x)).length) := by
  have hspec := clearAux_spec st.order st hnd h
  unfold TodoStorage.clear_completed clearedState
  rw [hspec]
  have hord : st.order.filter (fun x => !(st.order.contains x && completedAt st x)) =
      st.order.filter (fun x => !(completedAt st x)) := by
    apply List.filter_congr
    intro x hx
    have hc : st.order.contains x = true := List.elem_eq_true_of_mem hx
    rw [hc, Bool.true_and]
  rw [hord]

/-- The record keyspace of the cleared state answers lookups of every
identifier that is not completed exactly as before. -/
lemma recGet_clearedState_uncompleted (st : Store) (tid : String)
    (hc : completedAt st tid = false) :
    recGet (clearedState st).records tid = recGet st.records tid := by
  show recGet (st.records.filter _) tid = _
  apply recGet_filter_keep
  intro p hp
  rw [hp, hc]
  simp

lemma get_clearedState_uncompleted (st : Store) (tid : String)
    (hc : completedAt st tid = false) :
    TodoStorage.get (clearedState st) tid = TodoStorage.get st tid :=
  get_eq_of_recGet_eq (recGet_clearedState_uncompleted st tid hc)

lemma clearedState_order_mem (st : Store) :
    ∀ x ∈ (clearedState st).order, x ∈ st.order ∧ completedAt st x = false := by
  intro x hx
  have h1 := List.mem_filter.mp hx
  refine ⟨h1.1, ?_⟩
  have h2 := h1.2
  cases hcx : completedAt st x with
  | false => rfl
  | true =>
    rw [hcx] at h2
    exact Bool.noConfusion h2

/-- The cleared state answers `get` on every completed identifier of the old
order list with absent. -/
lemma get_clearedState_completed (st : Store) (tid : String)
    (htid : tid ∈ st.order) (hc : completedAt st tid = true) :
    TodoStorage.get (clearedState st) tid = .ok none := by
  have hc2 : st.order.contains tid = true := List.elem_eq_true_of_mem htid
  have hfind : (clearedState st).records.find? (fun p => p.1 == tid) = none := by
    rw [List.find?_eq_none]
    intro p hp hbeq
    have hmem := List.of_mem_filter hp
    have hpk : p.1 = tid := by simpa using hbeq
    rw [hpk, hc2, hc] at hmem
    simp at hmem
  have hnone : recGet (clearedState st).records tid = none := by
    unfold recGet
    rw [hfind]
    rfl
  unfold TodoStorage.get
  rw [hnone]

/-- A second `clear_completed` immediately after the first finds nothing
completed: it returns 0 and leaves the state as it was. -/
lemma clear_completed_on_cleared (st : Store) (hnd : st.order.Nodup)
    (h : ∀ tid ∈ st.order, getFails st tid = false) :
    TodoStorage.clear_completed (clearedState st) = .ok (clearedState st, 0) := by
  have hnd2 : (clearedState st).order.Nodup := List.Nodup.filter _ hnd
  have hfails2 : ∀ tid ∈ (clearedState st).order,
      getFails (clearedState st) tid = false := by
    intro tid ht
    obtain ⟨hmem, hc⟩ := clearedState_order_mem st tid ht
    unfold getFails
    rw [get_clearedState_uncompleted st tid hc]
    have h3 := h tid hmem
    unfold getFails at h3
    exact h3
  have hcompl2 : ∀ tid ∈ (clearedState st).order,
      completedAt (clearedState st) tid = false := by
    intro tid ht
    obtain ⟨hmem, hc⟩ := clearedState_order_mem st tid ht
    unfold completedAt
    rw [get_clearedState_uncompleted st tid hc]
    unfold completedAt at hc
    exact hc
  have hspec2 := clear_completed_spec (clearedState st) hnd2 hfails2
  have hcnt : (clearedState st).order.filter
      (fun x => completedAt (clearedState st) x) = [] := by
    rw [List.filter_eq_nil_iff]
    intro x hx
    rw [hcompl2 x hx]
    simp
  have hordid : (clearedState st).order.filter
      (fun x => !(completedAt (clearedState st) x)) = (clearedState st).order := by
    rw [List.filter_eq_self]
    intro x hx
    rw [hcompl2 x hx]
    rfl
  have hrecid : (clearedState st).records.filter
      (fun p => !((clearedState st).order.contains p.1 &&
        completedAt (clearedState st) p.1)) = (clearedState st).records := by
    rw [List.filter_eq_self]
    intro p _
    by_cases hc : p.1 ∈ (clearedState st).order
    · have hcc : (clearedState st).order.contains p.1 = true :=
        List.elem_eq_true_of_mem hc
      rw [hcc, hcompl2 p.1 hc]
      simp
    · have hcc : (clearedState st).order.contains p.1 = false := by
        cases hb : (clearedState st).order.contains p.1 with
        | false => rfl
        | true => exact absurd (List.mem_of_elem_eq_true hb) hc
      rw [hcc]
      rfl
  have hcleared2 : clearedState (clearedState st) = clearedState st := by
    show ({ records := (clearedState st).records.filter _,
            order := (clearedState st).order.filter _ } : Store) = clearedState st
    rw [hrecid, hordid]
  rw [hspec2, hcleared2, hcnt]
  rfl

/-- C8: on a well-formed store (duplicate-free order index, no malformed
stored value reachable from it), `clear_completed` deletes exactly the todos
of the order index whose completion flag is true, returns their count, and an
immediate second call returns 0 with the state unchanged; concretely, after
adding three todos and toggling two of them it returns 2, `list_all` then
shows only the untoggled todo, and a repeat call returns 0. -/
theorem c8_clear_completed_count (st : Store) (hnd : st.order.Nodup)
    (h : ∀ tid ∈ st.order, getFails st tid = false) :
    ∃ st2, TodoStorage.clear_completed st =
        .ok (st2, (st.order.filter (fun x => completedAt st x)).length) ∧
      (∀ tid ∈ st.order, completedAt st tid = true →
        TodoStorage.get st2 tid = .ok none) ∧
      (∀ tid, completedAt st tid = false →
        TodoStorage.get st2 tid = TodoStorage.get st tid) ∧
      TodoStorage.clear_completed st2 = .ok (st2, 0) ∧
      (TodoStorage.clear_completed demoToggledStore = .ok (demoClearedStore, 2) ∧
        TodoStorage.list_all demoClearedStore = .ok [demoC] ∧
        TodoStorage.clear_completed demoClearedStore = .ok (demoClearedStore, 0)) :=
  ⟨clearedState st, clear_completed_spec st hnd h,
    fun tid htid hc => get_clearedState_completed st tid htid hc,
    fun tid hc => get_clearedState_uncompleted st tid hc,
    clear_completed_on_cleared st hnd h,
    rfl, rfl, rfl⟩

/-- C10: on a well-formed store, `clear_completed` never removes a todo whose
completion flag is false, and the surviving order index is exactly the
subsequence of identifiers that resolved to an uncompleted record, in their
original relative order. -/
theorem c10_clear_preserves_uncompleted (st : Store) (hnd : st.order.Nodup)
    (h : ∀ tid ∈ st.order, getFails st tid = false) :
    ∃ st2 n, TodoStorage.clear_completed st = .ok (st2, n) ∧
      (∀ tid t, TodoStorage.get st tid = .ok (some t) → t.done = false →
        TodoStorage.get st2 tid = .ok (some t)) ∧
      uncompletedIds st2 = uncompletedIds st := by
  refine ⟨clearedState st, _, clear_completed_spec st hnd h, ?_, ?_⟩
  · intro tid t hget hdone
    have hc : completedAt st tid = false := by
      unfold completedAt
      rw [hget]
      exact hdone
    rw [get_clearedState_uncompleted st tid hc]
    exact hget
  · have hgetOptEq : ∀ x, completedAt st x = false →
        getOpt (clearedState st) x = getOpt st x := by
      intro x hc
      unfold getOpt
      rw [get_clearedState_uncompleted st x hc]
    have hstep1 : uncompletedIds (clearedState st) =
        (clearedState st).order.filter (fun tid =>
          match getOpt st tid with
          | some t => !t.done
          | none => false) := by
      unfold uncompletedIds
      apply List.filter_congr
      intro x hx
      obtain ⟨_, hc⟩ := clearedState_order_mem st x hx
      rw [hgetOptEq x hc]
    have hstep2 : (clearedState st).order.filter (fun tid =>
        match getOpt st tid with
        | some t => !t.done
        | none => false) =
        st.order.filter (fun x =>
          (match getOpt st x with
           | some t => !t.done
           | none => false) && !(completedAt st x)) := by
      show (st.order.filter _).filter _ = _
      rw [List.filter_filter]
    have hstep3 : st.order.filter (fun x =>
        (match getOpt st x with
         | some t => !t.done
         | none => false) && !(completedAt st x)) =
        st.order.filter (fun x =>
          match getOpt st x with
          | some t => !t.done
          | none => false) := by
      apply List.filter_congr
      intro x _
      unfold getOpt completedAt
      cases hg : TodoStorage.get st x with
      | error e => rfl
      | ok o =>
        cases o with
        | none => rfl
        | some t =>
          show (!t.done && !t.done) = !t.done
          exact Bool.and_self _
    rw [hstep1, hstep2, hstep3]
    rfl

/-- C9: toggling an identifier that resolves to a record changes only the
completion flag: the returned record flips `done` and keeps identifier, title
and creation timestamp, and the record stored under the identifier afterwards
also keeps identifier, title and creation timestamp. -/
theorem c9_toggle_frame (st : Store) (x : String) (t : Todo)
    (h : TodoStorage.get st x = .ok (some t)) :
    ∃ st1 u, TodoStorage.toggle st x = .ok (st1, some u) ∧
      u.id = t.id ∧ u.title = t.title ∧ u.created_at = t.created_at ∧
      u.done = !t.done ∧
      ∃ w, TodoStorage.get st1 x = .ok (some w) ∧
        w.id = t.id ∧ w.title = t.title ∧ w.created_at = t.created_at := by
  obtain ⟨i, ti, d, c⟩ := t
  have hr : recGet st.records x = some (RawVal.enc ⟨i, ti, d, c⟩) :=
    (get_eq_ok_some_iff st x _).mp h
  have htog1 : TodoStorage.toggle st x =
      .ok ((TodoStorage.update st ⟨i, ti, !d, c⟩).1, some ⟨i, ti, !d, c⟩) := by
    unfold TodoStorage.toggle
    rw [h]
  set st1 := (TodoStorage.update st ⟨i, ti, !d, c⟩).1 with hst1
  by_cases hid : i = x
  · subst hid
    have hsome : (recGet st.records i).isSome := by rw [hr]; rfl
    have hr1 : recGet st1.records i = some (RawVal.enc ⟨i, ti, !d, c⟩) :=
      recGet_update_self st ⟨i, ti, !d, c⟩ hsome
    exact ⟨st1, _, htog1, rfl, rfl, rfl, rfl, ⟨i, ti, !d, c⟩,
      (get_eq_ok_some_iff _ i _).mpr hr1, rfl, rfl, rfl⟩
  · have hr1 : recGet st1.records x = some (RawVal.enc ⟨i, ti, d, c⟩) := by
      rw [hst1, recGet_update_ne st ⟨i, ti, !d, c⟩ x (fun he => hid he.symm)]
      exact hr
    exact ⟨st1, _, htog1, rfl, rfl, rfl, rfl, ⟨i, ti, d, c⟩,
      (get_eq_ok_some_iff _ x _).mpr hr1, rfl, rfl, rfl⟩

/-! ## Witnesses: each theorem with a hypothesis applied at a concrete input -/

/-- Witness for C1's amended theorem, at the malformed store. -/
theorem c1_get_absent_or_error_witness :
    (TodoStorage.get c1BadStore "x" = .ok none ↔
      recGet c1BadStore.records "x" = none ∨
        recGet c1BadStore.records "x" = some (RawVal.bad "")) ∧
    ((∃ e, TodoStorage.get c1BadStore "x" = .error e) ↔
      ∃ s, s ≠ "" ∧ recGet c1BadStore.records "x" = some (RawVal.bad s)) :=
  c1_get_absent_or_error c1BadStore "x"

/-- Witness for C2 at a store where the identifier exists. -/
theorem c2_delete_inclusive_or_witness :
    ((TodoStorage.delete demoTwoStore "id-a").2 = true ↔
      (recGet demoTwoStore.records "id-a").isSome = true ∨
        "id-a" ∈ demoTwoStore.order) ∧
    ((TodoStorage.delete demoTwoStore "id-a").2 = false →
      TodoStorage.delete demoTwoStore "id-a" = (demoTwoStore, false)) :=
  c2_delete_inclusive_or demoTwoStore "id-a"

/-- Witness for C3: a fresh identifier and a title with surrounding blanks. -/
theorem c3_add_get_roundtrip_witness :
    pyStrip "  milk " ≠ "" ∧
    ((∀ p ∈ demoTwoStore.records, p.1 ≠ "id-z") ∧ "id-z" ∉ demoTwoStore.order) ∧
    (TodoStorage.get
        (TodoStorage.add demoTwoStore
          (Todo.new "  milk " "id-z" "2024-01-02T00:00:00")).1 "id-z" =
        .ok (some (Todo.new "  milk " "id-z" "2024-01-02T00:00:00")) ∧
      (Todo.new "  milk " "id-z" "2024-01-02T00:00:00").title = pyStrip "  milk " ∧
      (Todo.new "  milk " "id-z" "2024-01-02T00:00:00").title ≠ "" ∧
      (Todo.new "  milk " "id-z" "2024-01-02T00:00:00").done = false ∧
      (Todo.new "  milk " "id-z" "2024-01-02T00:00:00").id = "id-z" ∧
      (∀ p ∈ demoTwoStore.records,
        (Todo.new "  milk " "id-z" "2024-01-02T00:00:00").id ≠ p.1) ∧
      (Todo.new "  milk " "id-z" "2024-01-02T00:00:00").id ∉ demoTwoStore.order) :=
  ⟨by decide, ⟨by decide, by decide⟩,
    c3_add_get_roundtrip demoTwoStore "  milk " "id-z" "2024-01-02T00:00:00"
      (by decide) ⟨by decide, by decide⟩⟩

/-- Witness for C4 at the two-todo store. -/
theorem c4_list_all_skips_absent_witness :
    (∀ tid ∈ demoTwoStore.order, getFails demoTwoStore tid = false) ∧
    (TodoStorage.list_all demoTwoStore =
        .ok (demoTwoStore.order.filterMap (getOpt demoTwoStore)) ∧
      TodoStorage.list_all demoTwoStore = .ok [demoB, demoA]) :=
  ⟨by decide, c4_list_all_skips_absent demoTwoStore (by decide)⟩

/-- Witness for C5 at the two-todo store. -/
theorem c5_toggle_twice_restores_witness :
    TodoStorage.get demoTwoStore "id-a" = .ok (some demoA) ∧
    (∃ st1 u1, TodoStorage.toggle demoTwoStore "id-a" = .ok (st1, some u1) ∧
      ∃ st2 u2, TodoStorage.toggle st1 "id-a" = .ok (st2, some u2) ∧
        ∃ w, TodoStorage.get st2 "id-a" = .ok (some w) ∧ w.done = demoA.done) :=
  ⟨rfl, c5_toggle_twice_restores demoTwoStore "id-a" demoA rfl⟩

/-- Witness for C6 at an identifier with no record. -/
theorem c6_toggle_absent_witness :
    TodoStorage.get emptyStore "missing" = .ok none ∧
    (TodoStorage.toggle emptyStore "missing" = .ok (emptyStore, none) ∧
      api_toggle emptyStore "missing" = .ok (emptyStore, ApiToggleResult.notFound404)) :=
  ⟨rfl, c6_toggle_absent emptyStore "missing" rfl⟩

/-- Witness for C7 at a whitespace-only title. -/
theorem c7_blank_title_rejected_witness :
    pyStrip "   " = "" ∧
    (api_add emptyStore (some "   ") "id-w" "2024-01-02T00:00:00" =
        (emptyStore, ApiAddResult.badRequest) ∧
      add_todo emptyStore (some "   ") "id-w" "2024-01-02T00:00:00" =
        (emptyStore, WebAddResult.flashBlankTitle)) :=
  ⟨by decide, c7_blank_title_rejected emptyStore "   " "id-w" "2024-01-02T00:00:00"
    (by decide)⟩

/-- Witness for C8 at the three-todo store with two completed todos. -/
theorem c8_clear_completed_count_witness :
    demoToggledStore.order.Nodup ∧
    (∀ tid ∈ demoToggledStore.order, getFails demoToggledStore tid = false) ∧
    (∃ st2, TodoStorage.clear_completed demoToggledStore =
        .ok (st2, (demoToggledStore.order.filter
          (fun x => completedAt demoToggledStore x)).length) ∧
      (∀ tid ∈ demoToggledStore.order, completedAt demoToggledStore tid = true →
        TodoStorage.get st2 tid = .ok none) ∧
      (∀ tid, completedAt demoToggledStore tid = false →
        TodoStorage.get st2 tid = TodoStorage.get demoToggledStore tid) ∧
      TodoStorage.clear_completed st2 = .ok (st2, 0) ∧
      (TodoStorage.clear_completed demoToggledStore = .ok (demoClearedStore, 2) ∧
        TodoStorage.list_all demoClearedStore = .ok [demoC] ∧
        TodoStorage.clear_completed demoClearedStore = .ok (demoClearedStore, 0))) :=
  ⟨by decide, by decide,
    c8_clear_completed_count demoToggledStore (by decide) (by decide)⟩

/-- Witness for C9 at the two-todo store. -/
theorem c9_toggle_frame_witness :
    TodoStorage.get demoTwoStore "id-b" = .ok (some demoB) ∧
    (∃ st1 u, TodoStorage.toggle demoTwoStore "id-b" = .ok (st1, some u) ∧
      u.id = demoB.id ∧ u.title = demoB.title ∧ u.created_at = demoB.created_at ∧
      u.done = !demoB.done ∧
      ∃ w, TodoStorage.get st1 "id-b" = .ok (some w) ∧
        w.id = demoB.id ∧ w.title = demoB.title ∧ w.created_at = demoB.created_at) :=
  ⟨rfl, c9_toggle_frame demoTwoStore "id-b" demoB rfl⟩

/-- Witness for C10 at the three-todo store with two completed todos. -/
theorem c10_clear_preserves_uncompleted_witness :
    demoToggledStore.order.Nodup ∧
    (∀ tid ∈ demoToggledStore.order, getFails demoToggledStore tid = false) ∧
    (∃ st2 n, TodoStorage.clear_completed demoToggledStore = .ok (st2, n) ∧
      (∀ tid t, TodoStorage.get demoToggledStore tid = .ok (some t) →
        t.done = false → TodoStorage.get st2 tid = .ok (some t)) ∧
      uncompletedIds st2 = uncompletedIds demoToggledStore) :=
  ⟨by decide, by decide,
    c10_clear_preserves_uncompleted demoToggledStore (by decide) (by decide)⟩
